import Mathlib

/-!
Shallow embedding of the interactable-element discovery pass of
src/src/agents/discover_agent.py (class DiscoveryTools).

The in-page JavaScript of get_interactable_elements reads, per candidate
element matched by the combined selector: its lower-cased tag name, its
type attribute, computed display / visibility / opacity, offsetWidth,
offsetHeight, innerText, value, aria-label and disabled.  A RawElem
records exactly those observations; the list of RawElem stands for the
selector matches in document order.  JS falsiness of strings (empty
string is falsy, getAttribute may return null) is modelled with String
and Option String.
-/

namespace DeepContext

structure RawElem where
  tag : String
  typeAttr : Option String
  display : String
  visibility : String
  opacity : String
  offsetWidth : Nat
  offsetHeight : Nat
  innerText : String
  value : String
  ariaLabel : Option String
  disabled : Option Bool
  deriving DecidableEq, Repr

structure Element where
  id : String
  text : String
  tag : String
  visible : Bool
  disabled : Bool
  score : Nat
  deriving DecidableEq, Repr

/-- The isVisible check of the inline script: display not none, visibility
not hidden, opacity not the string 0, and positive rendered extents. -/
def isVisible (e : RawElem) : Bool :=
  (e.display != "none") && (e.visibility != "hidden") && (e.opacity != "0") &&
  decide (0 < e.offsetWidth) && decide (0 < e.offsetHeight)

/-- The scoring conditional of the inline script, a function of the
lower-cased tag and of getAttribute of type coalesced to the empty string. -/
def scoreOf (tag ty : String) : Nat :=
  if tag = "button" ∨ tag = "a" ∨ ty = "submit" then 10
  else if tag = "input" ∨ tag = "select" ∨ tag = "textarea" then 8
  else 5

/-- el.innerText or el.value or el.getAttribute of aria-label or the empty
string, with JS string falsiness (empty string falsy, null falsy). -/
def chooseText (e : RawElem) : String :=
  if e.innerText ≠ "" then e.innerText
  else if e.value ≠ "" then e.value
  else e.ariaLabel.getD ""

/-- The regex replace of slash-n by a space, applied characterwise. -/
def replaceNewlines (l : List Char) : List Char :=
  l.map (fun c => if c = '\n' then ' ' else c)

/-- JS String.prototype.trim: drop whitespace from both ends. -/
def trimChars (l : List Char) : List Char :=
  (((l.dropWhile Char.isWhitespace).reverse.dropWhile Char.isWhitespace)).reverse

/-- text.slice(0, 50).replace of newlines by spaces .trim() -/
def normText (s : String) : String :=
  String.mk (trimChars (replaceNewlines (s.toList.take 50)))

/-- The object literal pushed for one visible element at counter value
idCounter. -/
def mkElement (idCounter : Nat) (e : RawElem) : Element :=
  { id := toString idCounter
    text := normText (chooseText e)
    tag := e.tag
    visible := true
    disabled := e.disabled.getD false
    score := scoreOf e.tag (e.typeAttr.getD "") }

/-- The for-loop of the inline script: skip invisible elements, emit a
descriptor and bump idCounter for each visible one. -/
def scanLoop : List RawElem → Nat → List Element
  | [], _ => []
  | e :: rest, idCounter =>
    if isVisible e then mkElement idCounter e :: scanLoop rest (idCounter + 1)
    else scanLoop rest idCounter

/-- The value the inline script returns: loop over the matches with the
counter starting at 0. -/
def scanElements (els : List RawElem) : List Element :=
  scanLoop els 0

/-- A concrete visible button element, as the scan's JS would observe one. -/
def buttonElem : RawElem :=
  { tag := "button", typeAttr := none, display := "block", visibility := "visible",
    opacity := "1", offsetWidth := 120, offsetHeight := 40,
    innerText := "Submit", value := "", ariaLabel := none, disabled := some false }

lemma mem_scanLoop {d : Element} : ∀ (els : List RawElem) (n : Nat),
    d ∈ scanLoop els n → ∃ e, e ∈ els ∧ isVisible e = true ∧ ∃ k, d = mkElement k e := by
  intro els
  induction els with
  | nil => intro n h; simp [scanLoop] at h
  | cons e rest ih =>
    intro n h
    by_cases hv : isVisible e
    · rw [scanLoop, if_pos hv] at h
      rcases List.mem_cons.mp h with h | h
      · exact ⟨e, List.mem_cons_self e rest, hv, n, h⟩
      · obtain ⟨e', he', hv', hk⟩ := ih (n + 1) h
        exact ⟨e', List.mem_cons_of_mem e he', hv', hk⟩
    · rw [scanLoop, if_neg hv] at h
      obtain ⟨e', he', hv', hk⟩ := ih n h
      exact ⟨e', List.mem_cons_of_mem e he', hv', hk⟩

lemma scanLoop_eq : ∀ (els : List RawElem) (n : Nat),
    scanLoop els n
      = (List.enumFrom n (els.filter isVisible)).map (fun p => mkElement p.1 p.2) := by
  intro els
  induction els with
  | nil => intro n; simp [scanLoop]
  | cons e rest ih =>
    intro n
    by_cases hv : isVisible e
    · rw [scanLoop, if_pos hv, List.filter_cons_of_pos hv]
      rw [show List.enumFrom n (e :: rest.filter isVisible)
            = (n, e) :: List.enumFrom (n + 1) (rest.filter isVisible) from rfl]
      rw [List.map_cons, ih (n + 1)]
    · rw [scanLoop, if_neg hv, List.filter_cons_of_neg hv, ih n]

lemma scoreOf_cases (tag ty : String) :
    ((tag = "button" ∨ tag = "a" ∨ ty = "submit") → scoreOf tag ty = 10) ∧
    (¬(tag = "button" ∨ tag = "a" ∨ ty = "submit") →
      ((tag = "input" ∨ tag = "select" ∨ tag = "textarea") → scoreOf tag ty = 8) ∧
      (¬(tag = "input" ∨ tag = "select" ∨ tag = "textarea") → scoreOf tag ty = 5)) ∧
    (scoreOf tag ty = 5 ∨ scoreOf tag ty = 8 ∨ scoreOf tag ty = 10) := by
  by_cases h1 : tag = "button" ∨ tag = "a" ∨ ty = "submit"
  · simp [scoreOf, h1]
  · by_cases h2 : tag = "input" ∨ tag = "select" ∨ tag = "textarea" <;>
      simp [scoreOf, h1, h2]

/-- Claim C1: every descriptor of the element scan carries score 10 when its
source's tag is button or a or its type attribute is submit, otherwise 8
when its tag is input, select or textarea, otherwise 5; the score is
scoreOf of the tag and type attribute alone, hence always 5, 8 or 10. -/
theorem scan_score_rule (els : List RawElem) (d : Element)
    (hd : d ∈ scanElements els) :
    ∃ e, e ∈ els ∧ isVisible e = true ∧ d.tag = e.tag ∧
      d.score = scoreOf e.tag (e.typeAttr.getD "") ∧
      ((e.tag = "button" ∨ e.tag = "a" ∨ e.typeAttr.getD "" = "submit") → d.score = 10) ∧
      (¬(e.tag = "button" ∨ e.tag = "a" ∨ e.typeAttr.getD "" = "submit") →
        ((e.tag = "input" ∨ e.tag = "select" ∨ e.tag = "textarea") → d.score = 8) ∧
        (¬(e.tag = "input" ∨ e.tag = "select" ∨ e.tag = "textarea") → d.score = 5)) ∧
      (d.score = 5 ∨ d.score = 8 ∨ d.score = 10) := by
  obtain ⟨e, he, hv, k, rfl⟩ := mem_scanLoop els 0 hd
  exact ⟨e, he, hv, rfl, rfl, (scoreOf_cases _ _).1, (scoreOf_cases _ _).2.1,
    (scoreOf_cases _ _).2.2⟩

/-- Claim C1 witness: the scan of a single visible button emits a descriptor
obeying the scoring rule with score 10. -/
theorem scan_score_rule_witness :
    ∃ e, e ∈ [buttonElem] ∧ isVisible e = true ∧ (mkElement 0 buttonElem).tag = e.tag ∧
      (mkElement 0 buttonElem).score = scoreOf e.tag (e.typeAttr.getD "") ∧
      ((e.tag = "button" ∨ e.tag = "a" ∨ e.typeAttr.getD "" = "submit") →
        (mkElement 0 buttonElem).score = 10) ∧
      (¬(e.tag = "button" ∨ e.tag = "a" ∨ e.typeAttr.getD "" = "submit") →
        ((e.tag = "input" ∨ e.tag = "select" ∨ e.tag = "textarea") →
          (mkElement 0 buttonElem).score = 8) ∧
        (¬(e.tag = "input" ∨ e.tag = "select" ∨ e.tag = "textarea") →
          (mkElement 0 buttonElem).score = 5)) ∧
      ((mkElement 0 buttonElem).score = 5 ∨ (mkElement 0 buttonElem).score = 8 ∨
        (mkElement 0 buttonElem).score = 10) :=
  scan_score_rule [buttonElem] (mkElement 0 buttonElem) (by decide)

/-- Claim C3: every descriptor of the element scan has visible true; an
element is emitted only if all five visibility clauses hold (filtering the
input to the visible elements changes nothing), and isVisible is exactly
the conjunction of the five clauses. -/
theorem scan_visibility_invariant (els : List RawElem) :
    (∀ d, d ∈ scanElements els → d.visible = true) ∧
    scanElements (els.filter isVisible) = scanElements els ∧
    (∀ e : RawElem, isVisible e = true ↔
      (e.display ≠ "none" ∧ e.visibility ≠ "hidden" ∧ e.opacity ≠ "0" ∧
       0 < e.offsetWidth ∧ 0 < e.offsetHeight)) := by
  refine ⟨?_, ?_, ?_⟩
  · intro d hd
    obtain ⟨e, _, _, k, rfl⟩ := mem_scanLoop els 0 hd
    rfl
  · show scanLoop (els.filter isVisible) 0 = scanLoop els 0
    rw [scanLoop_eq, scanLoop_eq, List.filter_filter]
    simp
  · intro e
    simp [isVisible, Bool.and_eq_true, bne_iff_ne, decide_eq_true_eq, and_assoc]

/-- Claim C4: a scan of N emitted descriptors carries ids that are exactly
the stringified integers 0 through N minus 1, in document order over the
visible elements only; the whole result is the enumeration of the filtered
list. -/
theorem scan_id_assignment (els : List RawElem) :
    (scanElements els).length = (els.filter isVisible).length ∧
    (scanElements els).map (fun d => d.id)
      = (List.range (els.filter isVisible).length).map (fun i => toString i) ∧
    scanElements els = ((els.filter isVisible).enum).map (fun p => mkElement p.1 p.2) := by
  have h : scanElements els
      = ((els.filter isVisible).enum).map (fun p => mkElement p.1 p.2) :=
    scanLoop_eq els 0
  refine ⟨?_, ?_, h⟩
  · rw [h]; simp
  · rw [h, List.map_map]
    rw [show ((fun d : Element => d.id) ∘ fun p : Nat × RawElem => mkElement p.1 p.2)
          = (fun i : Nat => toString i) ∘ Prod.fst from rfl]
    rw [← List.map_map, List.enum_map_fst]

lemma trimChars_sublist (l : List Char) : (trimChars l).Sublist l := by
  unfold trimChars
  have h1 : ((l.dropWhile Char.isWhitespace).reverse.dropWhile Char.isWhitespace).Sublist
      (l.dropWhile Char.isWhitespace).reverse :=
    (List.dropWhile_suffix _).sublist
  have h2 := h1.reverse
  rw [List.reverse_reverse] at h2
  exact h2.trans (List.dropWhile_suffix _).sublist

lemma head_dropWhile_not {p : Char → Bool} : ∀ (l : List Char) (a : Char),
    (l.dropWhile p).head? = some a → p a = false := by
  intro l
  induction l with
  | nil => intro a h; simp [List.dropWhile] at h
  | cons x t ih =>
    intro a h
    rw [List.dropWhile_cons] at h
    by_cases hx : p x = true
    · rw [if_pos hx] at h; exact ih a h
    · rw [if_neg hx] at h
      simp only [List.head?_cons, Option.some.injEq] at h
      rw [h] at hx
      simpa using hx

lemma trimChars_head (l : List Char) (c : Char)
    (h : (trimChars l).head? = some c) : c.isWhitespace = false := by
  unfold trimChars at h
  rw [List.head?_reverse] at h
  set A := l.dropWhile Char.isWhitespace with hA
  set B := A.reverse.dropWhile Char.isWhitespace with hB
  obtain ⟨t, ht⟩ := List.dropWhile_suffix (l := A.reverse) (p := Char.isWhitespace)
  have hBne : B ≠ [] := by
    intro hnil
    rw [hnil] at h
    simp at h
  have : A.reverse.getLast? = B.getLast? := by
    rw [← ht]
    exact List.getLast?_append_of_ne_nil t hBne
  rw [List.getLast?_reverse] at this
  have hfin : A.head? = some c := this.trans h
  rw [hA] at hfin
  exact head_dropWhile_not l c hfin

lemma trimChars_getLast (l : List Char) (c : Char)
    (h : (trimChars l).getLast? = some c) : c.isWhitespace = false := by
  unfold trimChars at h
  rw [List.getLast?_reverse] at h
  exact head_dropWhile_not _ c h

lemma normText_length (s : String) : (normText s).length ≤ 50 := by
  show (trimChars (replaceNewlines (s.toList.take 50))).length ≤ 50
  calc (trimChars (replaceNewlines (s.toList.take 50))).length
      ≤ (replaceNewlines (s.toList.take 50)).length :=
        (trimChars_sublist _).length_le
    _ = (s.toList.take 50).length := by simp [replaceNewlines]
    _ ≤ 50 := by rw [List.length_take]; exact min_le_left _ _

lemma normText_no_newline (s : String) (c : Char)
    (hc : c ∈ (normText s).toList) : ¬ c = '\n' := by
  have hc' : c ∈ replaceNewlines (s.toList.take 50) :=
    (trimChars_sublist _).mem hc
  obtain ⟨a, _, ha⟩ := List.mem_map.mp hc'
  by_cases hn : a = '\n'
  · rw [if_pos hn] at ha
    rw [← ha]; decide
  · rw [if_neg hn] at ha
    rw [← ha]; exact hn

/-- Claim C6: the text of every emitted descriptor is the normalization of
the precedence choice inner text, else form value, else aria-label, else
empty; the result has length at most 50, holds no newline character, and
starts and ends with a non-whitespace character when nonempty. -/
theorem text_normalization (els : List RawElem) (d : Element)
    (hd : d ∈ scanElements els) :
    (∃ e, e ∈ els ∧ d.text = normText (chooseText e) ∧
      (e.innerText ≠ "" → chooseText e = e.innerText) ∧
      (e.innerText = "" → e.value ≠ "" → chooseText e = e.value) ∧
      (e.innerText = "" → e.value = "" → chooseText e = e.ariaLabel.getD "")) ∧
    d.text.length ≤ 50 ∧
    (∀ c, c ∈ d.text.toList → ¬ c = '\n') ∧
    (∀ c, d.text.toList.head? = some c → c.isWhitespace = false) ∧
    (∀ c, d.text.toList.getLast? = some c → c.isWhitespace = false) := by
  obtain ⟨e, he, hv, k, rfl⟩ := mem_scanLoop els 0 hd
  refine ⟨⟨e, he, rfl, ?_, ?_, ?_⟩, normText_length _,
    fun c hc => normText_no_newline _ c hc,
    fun c hc => trimChars_head _ c hc,
    fun c hc => trimChars_getLast _ c hc⟩
  · intro h1; simp [chooseText, h1]
  · intro h1 h2; simp [chooseText, h1, h2]
  · intro h1 h2; simp [chooseText, h1, h2]

/-- Claim C6 witness: the descriptor scanned from a single visible button
satisfies the text-normalization contract. -/
theorem text_normalization_witness :
    (∃ e, e ∈ [buttonElem] ∧ (mkElement 0 buttonElem).text = normText (chooseText e) ∧
      (e.innerText ≠ "" → chooseText e = e.innerText) ∧
      (e.innerText = "" → e.value ≠ "" → chooseText e = e.value) ∧
      (e.innerText = "" → e.value = "" → chooseText e = e.ariaLabel.getD "")) ∧
    (mkElement 0 buttonElem).text.length ≤ 50 ∧
    (∀ c, c ∈ (mkElement 0 buttonElem).text.toList → ¬ c = '\n') ∧
    (∀ c, (mkElement 0 buttonElem).text.toList.head? = some c →
      c.isWhitespace = false) ∧
    (∀ c, (mkElement 0 buttonElem).text.toList.getLast? = some c →
      c.isWhitespace = false) :=
  text_normalization [buttonElem] (mkElement 0 buttonElem) (by decide)

/-- A visible element whose inner text holds a run of two newlines. -/
def newlineElem : RawElem :=
  { tag := "div", typeAttr := none, display := "block", visibility := "visible",
    opacity := "1", offsetWidth := 30, offsetHeight := 10,
    innerText := "a\n\nb", value := "", ariaLabel := none, disabled := none }

/-- Claim C7 counterexample: scanning an element whose inner text is the
letter a, two newlines, then the letter b yields the text a, two spaces, b:
the run of two newlines becomes two spaces, not the single space the claim
requires. -/
theorem newline_collapse_cex :
    (scanElements [newlineElem]).map (fun d => d.text) = ["a  b"] ∧
    ("a  b" : String) ≠ "a b" := by
  constructor
  · decide
  · decide

/-- Claim C7 amended: in the text pipeline each newline character of the
truncated text is replaced by exactly one space, length preserved, so a run
of k consecutive newlines becomes k consecutive spaces, not one. -/
theorem newline_replacement (s : String) (k : Nat) (a b : Char)
    (ha : ¬ a = '\n') (hb : ¬ b = '\n') :
    normText s = String.mk (trimChars (replaceNewlines (s.toList.take 50))) ∧
    replaceNewlines (a :: (List.replicate k '\n' ++ [b]))
      = a :: (List.replicate k ' ' ++ [b]) ∧
    (∀ l : List Char, (replaceNewlines l).length = l.length) := by
  refine ⟨rfl, ?_, fun l => by simp [replaceNewlines]⟩
  simp [replaceNewlines, ha, hb]

/-- Claim C7 amended witness: a concrete run of two newlines between two
letters becomes two spaces. -/
theorem newline_replacement_witness :
    normText "x" = String.mk (trimChars (replaceNewlines ("x".toList.take 50))) ∧
    replaceNewlines ('a' :: (List.replicate 2 '\n' ++ ['b']))
      = 'a' :: (List.replicate 2 ' ' ++ ['b']) ∧
    (∀ l : List Char, (replaceNewlines l).length = l.length) :=
  newline_replacement "x" 2 'a' 'b' (by decide) (by decide)

/-!
The stateful layer of DiscoveryTools.  A PageEnv records what the browser
collaborators would answer during one tool call: the page url and title,
the hostname urlparse extracts from the page url (none when the url has no
parseable hostname), the candidate elements the combined selector matches
in document order, and which collaborator calls raise.  A ToolsState is
the mutable state of a DiscoveryTools instance; launchCount and navCount
count the browser launches and goto navigations performed.  A FS is the
set of directories that exist.  Raising Python code is modelled with
Except: an ok value is a normal return, an error is an exception
surfacing to the caller; the ToolsState component of each result is the
instance state after the call, mutated even when the call raises.
-/

structure PageEnv where
  url : String
  title : String
  hostname : Option String
  domElements : List RawElem
  evalFails : Bool
  screenshotFails : Bool
  titleFails : Bool
  gotoFails : Bool
  loadTimeout : Bool
  deriving Repr

structure ToolsState where
  url : String
  initialized : Bool
  launchCount : Nat
  navCount : Nat
  log : List String
  deriving DecidableEq, Repr

/-- The state DiscoveryTools.__init__ builds. -/
def initState (url : String) : ToolsState :=
  { url := url, initialized := false, launchCount := 0, navCount := 0, log := [] }

structure FS where
  dirs : List String
  deriving DecidableEq, Repr

/-- Path.mkdir with parents and an exist_ok flag: an existing directory is
an error exactly when exist_ok is false. -/
def mkdir (existOk : Bool) (fs : FS) (dir : String) : Except String FS :=
  if dir ∈ fs.dirs then
    if existOk then Except.ok fs else Except.error "FileExistsError"
  else Except.ok { dirs := dir :: fs.dirs }

/-- _ensure_initialized: return at once when the flag is set; otherwise
launch, open a page and navigate, a goto failure or a load-state timeout
only logging a warning, and set the flag unconditionally at the end. -/
def ensureInitialized (env : PageEnv) (s : ToolsState) : ToolsState :=
  if s.initialized then s
  else
    { s with
      initialized := true
      launchCount := s.launchCount + 1
      navCount := s.navCount + 1
      log := s.log ++
        (if env.gotoFails then ["Navigation failed"]
         else if env.loadTimeout then
           ["Timeout waiting for specific load state, proceeding..."]
         else []) }

/-- take_screenshot: ensure initialization, build the host-partitioned
path from the working directory and the parsed hostname (unknown_host when
none), create the directory with exist_ok, then capture; a capture failure
raises to the caller, there being no handler around it. -/
def take_screenshot (env : PageEnv) (cwd : String) (fs : FS) (s : ToolsState) :
    (ToolsState × FS) × Except String String :=
  let s1 := ensureInitialized env s
  let dir := cwd ++ "/assets/" ++ env.hostname.getD "unknown_host"
  match mkdir true fs dir with
  | Except.error e => ((s1, fs), Except.error e)
  | Except.ok fs1 =>
    if env.screenshotFails then ((s1, fs1), Except.error "screenshot failed")
    else (({ s1 with log := s1.log ++ ["Screenshot saved"] }, fs1),
      Except.ok (dir ++ "/screenshot.png"))

structure Metadata where
  url : String
  title : String
  deriving DecidableEq, Repr

/-- get_page_metadata: ensure initialization, then read url and title; a
title read failure raises to the caller, there being no handler. -/
def get_page_metadata (env : PageEnv) (s : ToolsState) :
    ToolsState × Except String Metadata :=
  let s1 := ensureInitialized env s
  if env.titleFails then (s1, Except.error "title failed")
  else (s1, Except.ok { url := env.url, title := env.title })

/-- get_interactable_elements: ensure initialization, evaluate the inline
script; an evaluation failure is caught, logged and turned into an empty
list. -/
def get_interactable_elements (env : PageEnv) (s : ToolsState) :
    ToolsState × Except String (List Element) :=
  let s1 := ensureInitialized env s
  if env.evalFails then
    ({ s1 with log := s1.log ++ ["Error getting elements"] }, Except.ok [])
  else
    ({ s1 with log := s1.log ++ ["Found interactable elements"] },
      Except.ok (scanElements env.domElements))

inductive ToolOp
  | screenshot
  | elements
  | metadata
  deriving DecidableEq, Repr

/-- The instance-state effect of one public tool call. -/
def applyOp (env : PageEnv) (cwd : String) (op : ToolOp) (p : ToolsState × FS) :
    ToolsState × FS :=
  match op with
  | ToolOp.screenshot => (take_screenshot env cwd p.2 p.1).1
  | ToolOp.elements => ((get_interactable_elements env p.1).1, p.2)
  | ToolOp.metadata => ((get_page_metadata env p.1).1, p.2)

/-- A sequence of public tool calls against one DiscoveryTools instance. -/
def runOps (env : PageEnv) (cwd : String) : List ToolOp → ToolsState × FS → ToolsState × FS
  | [], p => p
  | op :: ops, p => runOps env cwd ops (applyOp env cwd op p)

/-- A healthy environment: a page with one button, no failing collaborator. -/
def envOk : PageEnv :=
  { url := "https://example.com/login", title := "Login",
    hostname := some "example.com", domElements := [buttonElem],
    evalFails := false, screenshotFails := false, titleFails := false,
    gotoFails := false, loadTimeout := false }

/-- An environment whose page evaluation raises (detached frame). -/
def envEvalFail : PageEnv :=
  { url := "https://example.com/", title := "", hostname := some "example.com",
    domElements := [], evalFails := true, screenshotFails := false,
    titleFails := false, gotoFails := false, loadTimeout := false }

/-- An environment whose screenshot capture raises. -/
def envShotFail : PageEnv :=
  { url := "https://example.com/", title := "Example",
    hostname := some "example.com", domElements := [], evalFails := false,
    screenshotFails := true, titleFails := false, gotoFails := false,
    loadTimeout := false }

/-- An environment for a page without a parseable hostname. -/
def envBlank : PageEnv :=
  { url := "about:blank", title := "", hostname := none,
    domElements := [], evalFails := false, screenshotFails := false,
    titleFails := false, gotoFails := false, loadTimeout := false }

lemma mkdir_true_eq (fs : FS) (dir : String) :
    mkdir true fs dir
      = Except.ok (if dir ∈ fs.dirs then fs else { dirs := dir :: fs.dirs }) := by
  by_cases h : dir ∈ fs.dirs <;> simp [mkdir, h]

lemma applyOp_state (env : PageEnv) (cwd : String) (op : ToolOp)
    (p : ToolsState × FS) :
    (applyOp env cwd op p).1.initialized = true ∧
    (applyOp env cwd op p).1.launchCount
      = (if p.1.initialized then p.1.launchCount else p.1.launchCount + 1) ∧
    (applyOp env cwd op p).1.navCount
      = (if p.1.initialized then p.1.navCount else p.1.navCount + 1) := by
  have hmk := mkdir_true_eq p.2 (cwd ++ "/assets/" ++ env.hostname.getD "unknown_host")
  cases op <;>
    by_cases h : p.1.initialized <;>
    by_cases hs : env.screenshotFails <;>
    by_cases he : env.evalFails <;>
    by_cases ht : env.titleFails <;>
    simp [applyOp, take_screenshot, get_interactable_elements, get_page_metadata,
      ensureInitialized, hmk, h, hs, he, ht]

lemma runOps_preserved (env : PageEnv) (cwd : String) :
    ∀ (ops : List ToolOp) (p : ToolsState × FS), p.1.initialized = true →
      (runOps env cwd ops p).1.initialized = true ∧
      (runOps env cwd ops p).1.launchCount = p.1.launchCount ∧
      (runOps env cwd ops p).1.navCount = p.1.navCount := by
  intro ops
  induction ops with
  | nil => intro p h; exact ⟨h, rfl, rfl⟩
  | cons op rest ih =>
    intro p h
    have ha := applyOp_state env cwd op p
    rw [h] at ha
    simp only [if_true] at ha
    obtain ⟨h1, h2, h3⟩ := ha
    have hr := ih (applyOp env cwd op p) h1
    rw [runOps]
    exact ⟨hr.1, hr.2.1.trans h2, hr.2.2.trans h3⟩

/-- Claim C2 counterexample: with a failing screenshot capture,
take_screenshot returns an error to its caller instead of a contained,
degraded result, so not every failure inside the three operations is
contained. -/
theorem error_containment_cex :
    (take_screenshot envShotFail "/work" (FS.mk [])
      (initState "https://example.com/")).2 = Except.error "screenshot failed" := rfl

/-- Claim C2 amended: only the element scan contains its failures (it
always returns ok, empty on evaluation failure); take_screenshot and
get_page_metadata propagate a screenshot-capture or title-read failure to
the caller, succeeding only when that collaborator call does. -/
theorem error_containment_amended (env : PageEnv) (cwd : String) (fs : FS)
    (s : ToolsState) :
    (∃ r, (get_interactable_elements env s).2 = Except.ok r) ∧
    (env.evalFails = true →
      (get_interactable_elements env s).2 = Except.ok ([] : List Element)) ∧
    (env.screenshotFails = true →
      (take_screenshot env cwd fs s).2 = Except.error "screenshot failed") ∧
    (env.screenshotFails = false →
      (take_screenshot env cwd fs s).2
        = Except.ok (cwd ++ "/assets/" ++ env.hostname.getD "unknown_host"
            ++ "/screenshot.png")) ∧
    (env.titleFails = true →
      (get_page_metadata env s).2 = Except.error "title failed") ∧
    (env.titleFails = false →
      (get_page_metadata env s).2 = Except.ok { url := env.url, title := env.title }) := by
  have hmk := mkdir_true_eq fs (cwd ++ "/assets/" ++ env.hostname.getD "unknown_host")
  refine ⟨?_, ?_, ?_, ?_, ?_, ?_⟩
  · by_cases he : env.evalFails
    · exact ⟨[], by simp [get_interactable_elements, he]⟩
    · exact ⟨scanElements env.domElements, by simp [get_interactable_elements, he]⟩
  · intro he; simp [get_interactable_elements, he]
  · intro hs; simp [take_screenshot, hmk, hs]
  · intro hs; simp [take_screenshot, hmk, hs]
  · intro ht; simp [get_page_metadata, ht]
  · intro ht; simp [get_page_metadata, ht]

/-- Claim C5: when element evaluation fails the scan returns the empty
list and appends the failure to the log, and for every environment the
scan returns an ok value, never an error. -/
theorem scan_failure_contained (env : PageEnv) (s : ToolsState)
    (h : env.evalFails = true) :
    (get_interactable_elements env s).2 = Except.ok ([] : List Element) ∧
    (get_interactable_elements env s).1.log
      = (ensureInitialized env s).log ++ ["Error getting elements"] ∧
    (∀ (env' : PageEnv) (s' : ToolsState),
      ∃ r, (get_interactable_elements env' s').2 = Except.ok r) := by
  refine ⟨by simp [get_interactable_elements, h], by simp [get_interactable_elements, h], ?_⟩
  intro env' s'
  by_cases h' : env'.evalFails
  · exact ⟨[], by simp [get_interactable_elements, h']⟩
  · exact ⟨scanElements env'.domElements, by simp [get_interactable_elements, h']⟩

/-- Claim C5 witness: a concrete failing evaluation yields the empty list. -/
theorem scan_failure_contained_witness :
    (get_interactable_elements envEvalFail (initState "https://example.com/")).2
      = Except.ok ([] : List Element) :=
  (scan_failure_contained envEvalFail (initState "https://example.com/") rfl).1

lemma take_screenshot_ok (env : PageEnv) (cwd : String) (fs : FS)
    (s : ToolsState) (hs : env.screenshotFails = false) :
    (take_screenshot env cwd fs s).2
      = Except.ok (cwd ++ "/assets/" ++ env.hostname.getD "unknown_host"
          ++ "/screenshot.png") := by
  have hmk := mkdir_true_eq fs (cwd ++ "/assets/" ++ env.hostname.getD "unknown_host")
  simp [take_screenshot, hmk, hs]

/-- Claim C8: the screenshot path is the working directory, assets, the
parsed hostname and screenshot.png; two calls with the same working
directory and the same hostname return identical path strings, and
directory creation with exist_ok set never errors on an existing
directory. -/
theorem screenshot_path_deterministic (env env' : PageEnv) (cwd : String)
    (fs fs' : FS) (s s' : ToolsState)
    (hh : env.hostname = env'.hostname)
    (h1 : env.screenshotFails = false) (h2 : env'.screenshotFails = false) :
    (take_screenshot env cwd fs s).2
      = Except.ok (cwd ++ "/assets/" ++ env.hostname.getD "unknown_host"
          ++ "/screenshot.png") ∧
    (take_screenshot env' cwd fs' s').2 = (take_screenshot env cwd fs s).2 ∧
    (∀ (fsx : FS) (d : String), d ∈ fsx.dirs → mkdir true fsx d = Except.ok fsx) := by
  refine ⟨take_screenshot_ok env cwd fs s h1, ?_, ?_⟩
  · rw [take_screenshot_ok env' cwd fs' s' h2, take_screenshot_ok env cwd fs s h1, hh]
  · intro fsx d hd; simp [mkdir, hd]

/-- Claim C8 witness: a concrete call returns its deterministic path. -/
theorem screenshot_path_deterministic_witness :
    (take_screenshot envOk "/work" (FS.mk []) (initState "u")).2
      = Except.ok ("/work" ++ "/assets/" ++ envOk.hostname.getD "unknown_host"
          ++ "/screenshot.png") :=
  (screenshot_path_deterministic envOk envOk "/work" (FS.mk []) (FS.mk [])
    (initState "u") (initState "u") rfl rfl rfl).1

/-- Claim C9: every public tool call first runs the lazy initializer:
after any nonempty call sequence on a fresh instance exactly one launch
and one navigation happened, every call leaves the flag set, a call on an
initialized instance never relaunches or renavigates, and the initializer
sets the flag even when navigation fails. -/
theorem lazy_initialization (env : PageEnv) (cwd : String) (url : String)
    (ops : List ToolOp) (hne : ops ≠ []) :
    (runOps env cwd ops (initState url, FS.mk [])).1.initialized = true ∧
    (runOps env cwd ops (initState url, FS.mk [])).1.launchCount = 1 ∧
    (runOps env cwd ops (initState url, FS.mk [])).1.navCount = 1 ∧
    (∀ (op : ToolOp) (p : ToolsState × FS),
      (applyOp env cwd op p).1.initialized = true) ∧
    (∀ (op : ToolOp) (p : ToolsState × FS), p.1.initialized = true →
      (applyOp env cwd op p).1.launchCount = p.1.launchCount ∧
      (applyOp env cwd op p).1.navCount = p.1.navCount) ∧
    (∀ (env2 : PageEnv) (s : ToolsState), env2.gotoFails = true →
      (ensureInitialized env2 s).initialized = true) := by
  obtain ⟨op, rest, rfl⟩ : ∃ op rest, ops = op :: rest := by
    cases ops with
    | nil => exact absurd rfl hne
    | cons a l => exact ⟨a, l, rfl⟩
  have ha := applyOp_state env cwd op (initState url, FS.mk [])
  simp only [initState, if_false] at ha
  obtain ⟨h1, h2, h3⟩ := ha
  have hr := runOps_preserved env cwd rest (applyOp env cwd op (initState url, FS.mk [])) h1
  refine ⟨hr.1, hr.2.1.trans h2, hr.2.2.trans h3, ?_, ?_, ?_⟩
  · intro op' p; exact (applyOp_state env cwd op' p).1
  · intro op' p hp
    have h := applyOp_state env cwd op' p
    rw [hp] at h
    simp only [if_true] at h
    exact ⟨h.2.1, h.2.2⟩
  · intro env2 s h2'
    by_cases hi : s.initialized <;> simp [ensureInitialized, hi]

/-- Claim C9 witness: after three concrete tool calls on a fresh instance
the browser was launched exactly once. -/
theorem lazy_initialization_witness :
    (runOps envOk "/work" [ToolOp.screenshot, ToolOp.metadata, ToolOp.elements]
      (initState "https://example.com/login", FS.mk [])).1.launchCount = 1 :=
  (lazy_initialization envOk "/work" "https://example.com/login"
    [ToolOp.screenshot, ToolOp.metadata, ToolOp.elements] (by decide)).2.1

/-- Claim C10: when the page url has no parseable hostname, take_screenshot
still succeeds and its path uses the fixed directory name unknown_host. -/
theorem unknown_host_fallback (env : PageEnv) (cwd : String) (fs : FS)
    (s : ToolsState) (hh : env.hostname = none)
    (hs : env.screenshotFails = false) :
    (take_screenshot env cwd fs s).2
      = Except.ok (cwd ++ "/assets/unknown_host/screenshot.png") := by
  have hpath : cwd ++ "/assets/" ++ "unknown_host" ++ "/screenshot.png"
      = cwd ++ "/assets/unknown_host/screenshot.png" := by
    rw [String.append_assoc, String.append_assoc,
      show ("/assets/" ++ ("unknown_host" ++ "/screenshot.png") : String)
        = "/assets/unknown_host/screenshot.png" from rfl]
  rw [take_screenshot_ok env cwd fs s hs, hh]
  simp [hpath]

/-- Claim C10 witness: a page at about blank yields the unknown_host path. -/
theorem unknown_host_fallback_witness :
    (take_screenshot envBlank "/work" (FS.mk []) (initState "about:blank")).2
      = Except.ok ("/work" ++ "/assets/unknown_host/screenshot.png") :=
  unknown_host_fallback envBlank "/work" (FS.mk []) (initState "about:blank") rfl rfl

end DeepContext
